import Mathlib

/-!
Verification of the task-to-staff scheduling core of the repository
(`src/schedule.py`): staff loading, eligibility resolution, horizon
computation, the single-day and multi-day constraint models, solution
decoding, and CSV serialisation.

The CP-SAT solver is external; we model the constraint system it receives
as a satisfaction predicate over the Boolean decision variables, and the
solver's contract ("a returned solution satisfies all constraints of the
model") appears as a hypothesis of the theorems.  Machine floats are
embedded as rationals; Python `round` (banker's rounding) and `float()`
string parsing are modelled explicitly, as is `datetime.date.fromisoformat`
(dates become proleptic-Gregorian ordinals, as in CPython's `toordinal`).
-/

namespace Sched

/-- Python `str.lower()` on the character list of a string (ASCII case map,
as used by the location strings in this code base). -/
def lowerChars (s : String) : List Char :=
  s.data.map Char.toLower

/-- Does `n` match the front of `h` character by character? -/
def leadMatch : List Char → List Char → Bool
  | [], _ => true
  | _ :: _, [] => false
  | a :: n, b :: h => a == b && leadMatch n h

/-- Python substring test `n in h` on character lists. -/
def occursIn (n : List Char) : List Char → Bool
  | [] => n.isEmpty
  | b :: h => leadMatch n (b :: h) || occursIn n h

/-- Case-insensitive substring test used by the eligibility rule:
`task_location.lower() in staff_location.lower()`. -/
def locMatch (taskLoc staffLoc : String) : Bool :=
  occursIn (lowerChars taskLoc) (lowerChars staffLoc)

/-- The integer `n` as a rational, built from the raw constructor so that
kernel reduction works on concrete values. -/
def ratInt (n : ℤ) : ℚ := ⟨n, 1, Nat.one_ne_zero, Nat.coprime_one_right _⟩

/-- Python `round` with no digits argument: round half to even
(banker's rounding), as applied to the rational embedding of a float.
Computed on the reduced numerator/denominator: with `f` the floor of `q`
the fractional part is `(q.num - f * q.den) / q.den`, and comparing it to
one half compares `2 * (q.num - f * q.den)` with `q.den`. -/
def pyRound (q : ℚ) : ℤ :=
  let d : ℤ := (q.den : ℤ)
  let f : ℤ := Int.fdiv q.num d
  let r2 : ℤ := 2 * (q.num - f * d)
  if r2 < d then f
  else if d < r2 then f + 1
  else if f % 2 = 0 then f else f + 1

/-- Value of a decimal digit character. -/
def digitVal (c : Char) : ℕ := c.toNat - 48

/-- Do all characters in the list denote decimal digits? -/
def allDigits (cs : List Char) : Bool := cs.all Char.isDigit

/-- Natural number denoted by a (non-empty, all-digit) character list. -/
def natOfDigits (cs : List Char) : ℕ :=
  cs.foldl (fun acc c => acc * 10 + digitVal c) 0

/-- Strip leading and trailing whitespace, as Python `float()` does. -/
def trimWs (cs : List Char) : List Char :=
  ((cs.dropWhile Char.isWhitespace).reverse.dropWhile Char.isWhitespace).reverse

/-- Split a character list at the first occurrence of `c`; the second
component is `none` when `c` does not occur. -/
def splitAtChar (c : Char) (cs : List Char) : List Char × Option (List Char) :=
  let pre := cs.takeWhile (fun x => x != c)
  let rest := cs.dropWhile (fun x => x != c)
  match rest with
  | [] => (pre, none)
  | _ :: tl => (pre, some tl)

/-- Take an optional leading sign; returns (negative?, remaining chars). -/
def takeSign : List Char → Bool × List Char
  | '-' :: cs => (true, cs)
  | '+' :: cs => (false, cs)
  | cs => (false, cs)

/-- Parse the mantissa `digits [ . digits ]` (at least one digit overall)
into a non-negative rational. -/
def parseMantissa (cs : List Char) : Option ℚ :=
  let (ip, fp) := splitAtChar '.' cs
  let f := fp.getD []
  if allDigits ip && allDigits f && !(ip.isEmpty && f.isEmpty) then
    some (((natOfDigits ip : ℚ) * 10 ^ f.length + (natOfDigits f : ℚ)) / 10 ^ f.length)
  else
    none

/-- Parse an exponent part `[ sign ] digits` into an integer. -/
def parseExp (cs : List Char) : Option ℤ :=
  let (neg, ds) := takeSign cs
  if allDigits ds && !ds.isEmpty then
    some (if neg then -(natOfDigits ds : ℤ) else (natOfDigits ds : ℤ))
  else
    none

/-- Python `float()` applied to a string, embedded over the rationals:
optional surrounding whitespace, optional sign, decimal mantissa with an
optional fractional part, optional decimal exponent.  Returns `none`
exactly when CPython would raise `ValueError` (the special spellings
`inf`/`nan` and digit-group underscores are outside the scope of this
code base's data and are not modelled). -/
def pyFloat (s : String) : Option ℚ :=
  let cs := trimWs s.data
  let (neg, cs1) := takeSign cs
  let (mant, expPart) := splitAtChar 'e' (cs1.map Char.toLower)
  match parseMantissa mant with
  | none => none
  | some m =>
    match expPart with
    | none => some (if neg then -m else m)
    | some ec =>
      match parseExp ec with
      | none => none
      | some k => some ((if neg then -m else m) * (10 : ℚ) ^ k)

/-- Proleptic-Gregorian leap-year test (as in CPython `datetime`). -/
def isLeap (y : ℕ) : Bool :=
  y % 4 == 0 && (y % 100 != 0 || y % 400 == 0)

/-- Days in month `m` of year `y`. -/
def daysInMonth (y m : ℕ) : ℕ :=
  if m = 2 then (if isLeap y then 29 else 28)
  else if m = 4 ∨ m = 6 ∨ m = 9 ∨ m = 11 then 30
  else 31

/-- Number of days before January 1 of year `y` (CPython `_days_before_year`). -/
def daysBeforeYear (y : ℕ) : ℕ :=
  (y - 1) * 365 + (y - 1) / 4 - (y - 1) / 100 + (y - 1) / 400

/-- Number of days in year `y` preceding the first of month `m`. -/
def daysBeforeMonth (y m : ℕ) : ℕ :=
  ((List.range' 1 (m - 1)).map (daysInMonth y)).sum

/-- CPython `date.toordinal`: day number of `(y, m, d)` with ordinal 1 =
January 1 of year 1. -/
def toOrdinal (y m d : ℕ) : ℕ :=
  daysBeforeYear y + daysBeforeMonth y m + d

/-- `datetime.date.fromisoformat` on a `YYYY-MM-DD` string, returning the
date as its proleptic-Gregorian ordinal; `none` when CPython would raise
(wrong shape, month or day out of range, or year 0). -/
def pyDateFromIso (s : String) : Option ℤ :=
  match s.data with
  | [y1, y2, y3, y4, h1, m1, m2, h2, d1, d2] =>
    if h1 = '-' ∧ h2 = '-' ∧ allDigits [y1, y2, y3, y4] ∧ allDigits [m1, m2] ∧
        allDigits [d1, d2] then
      let y := natOfDigits [y1, y2, y3, y4]
      let m := natOfDigits [m1, m2]
      let d := natOfDigits [d1, d2]
      if 1 ≤ y ∧ 1 ≤ m ∧ m ≤ 12 ∧ 1 ≤ d ∧ d ≤ daysInMonth y m then
        some (toOrdinal y m d : ℤ)
      else none
    else none
  | _ => none

/-- CPython `date.fromordinal` core: ordinal (≥ 1) to `(year, month, day)`. -/
def fromOrdinal (n0 : ℕ) : ℕ × ℕ × ℕ :=
  let n := n0 - 1
  let n400 := n / 146097
  let r400 := n % 146097
  let n100 := r400 / 36524
  let r100 := r400 % 36524
  let n4 := r100 / 1461
  let r4 := r100 % 1461
  let n1 := r4 / 365
  let doy := r4 % 365
  let y := n400 * 400 + 1 + n100 * 100 + n4 * 4 + n1
  if n1 = 4 ∨ n100 = 4 then (y - 1, 12, 31)
  else
    let m := (((List.range' 1 12).filter (fun m => daysBeforeMonth y m ≤ doy)).getLastD 1)
    (y, m, doy - daysBeforeMonth y m + 1)

/-- Zero-padded decimal rendering with (at least) `w` digits. -/
def padNum (w n : ℕ) : String :=
  let s := toString n
  (String.mk (List.replicate (w - s.length) '0')) ++ s

/-- `date.isoformat()` of the date with the given ordinal. -/
def isoOfOrdinal (o : ℤ) : String :=
  let ymd := fromOrdinal o.toNat
  padNum 4 ymd.1 ++ "-" ++ padNum 2 ymd.2.1 ++ "-" ++ padNum 2 ymd.2.2

/-- A staff record as produced by `load_staff`: the `id` and `name` fields
can be absent (`None` in Python) when the source row has no such column,
`location` always defaults to the empty string, and `capacity` is the
parsed float. -/
structure Staff where
  id : Option String
  name : Option String
  location : String
  capacity : ℚ
deriving Repr, DecidableEq

/-- A task as produced by `build_tasks`: one part needed for one machine,
with the order reference, target date and location passed through from the
machine mapping (each possibly `None`). -/
structure Task where
  machine : String
  order : Option String
  part : String
  target_date : Option String
  location : Option String
deriving Repr, DecidableEq

/-- One input row for `load_staff`, keyed by the column names (and header
aliases) the loader looks up; a field is `none` when the column is absent
and holds the cell text otherwise. -/
structure StaffRow where
  id : Option String := none
  staff_id : Option String := none
  idUpper : Option String := none
  name : Option String := none
  nameUpper : Option String := none
  location : Option String := none
  locationUpper : Option String := none
  capacity_per_day : Option String := none
  capacity : Option String := none
deriving Repr, DecidableEq

/-- Python `a or b` on two optional strings, where `None` and the empty
string are falsy. -/
def pyOrStr (a b : Option String) : Option String :=
  match a with
  | some s => if s = "" then b else some s
  | none => b

/-- The `id` value of a loaded staff row:
`row.get('id') or row.get('staff_id') or row.get('ID')`. -/
def rowIdField (r : StaffRow) : Option String :=
  pyOrStr r.id (pyOrStr r.staff_id r.idUpper)

/-- The `name` value of a loaded staff row: `row.get('name') or row.get('Name')`. -/
def rowNameField (r : StaffRow) : Option String :=
  pyOrStr r.name r.nameUpper

/-- The `location` value of a loaded staff row:
`row.get('location') or row.get('Location') or ''`. -/
def rowLocField (r : StaffRow) : String :=
  (pyOrStr r.location r.locationUpper).getD ""

/-- A Python value as the operand of a further `or`: `none` when falsy
(`None` or the empty string), itself otherwise. -/
def truthyStr (a : Option String) : Option String :=
  match a with
  | some s => if s = "" then none else some s
  | none => none

/-- The capacity cell chosen by
`row.get('capacity_per_day') or row.get('capacity') or 1`: the first
truthy cell, or `none` when both are absent or empty — the chain then
falls through to the literal `1`, so `float()` is called on the default,
never on an empty cell. -/
def rowCapacityField (r : StaffRow) : Option String :=
  truthyStr (pyOrStr r.capacity_per_day r.capacity)

/-- Load one staff row.  `float()` on an unparsable non-empty cell raises
`ValueError`, which propagates out of `load_staff`; that is the `error`
case here. -/
def loadOne (r : StaffRow) : Except String Staff :=
  match rowCapacityField r with
  | none => Except.ok ⟨rowIdField r, rowNameField r, rowLocField r, ratInt 1⟩
  | some s =>
    match pyFloat s with
    | some q => Except.ok ⟨rowIdField r, rowNameField r, rowLocField r, q⟩
    | none => Except.error "ValueError: could not convert string to float"

/-- `load_staff` over the parsed rows of the CSV file: builds one staff
record per row in order, propagating the first `ValueError` (the partial
list built before the exception is discarded, as in Python). -/
def loadStaff : List StaffRow → Except String (List Staff)
  | [] => Except.ok []
  | r :: rest =>
    match loadOne r with
    | Except.error e => Except.error e
    | Except.ok st =>
      match loadStaff rest with
      | Except.error e => Except.error e
      | Except.ok l => Except.ok (st :: l)

/-- Element access `staff_list[i]` (total, with a default carrying
capacity 1 as in the loader; all uses are at in-range indices). -/
def staffAt (staff : List Staff) (i : ℕ) : Staff :=
  staff.getD i ⟨none, none, "", ratInt 1⟩

/-- Element access `tasks[t]`. -/
def taskAt (tasks : List Task) (t : ℕ) : Task :=
  tasks.getD t ⟨"", none, "", none, none⟩

/-- Python truthiness of `task.get('location')`: falsy when the key holds
`None` or the empty string. -/
def taskLocFalsy (t : Task) : Bool :=
  match t.location with
  | none => true
  | some s => s == ""

/-- The `allowed` staff-index list both schedulers build for a task:
indices `i` with `(not task.get('location')) or (s.get('location') and
task.get('location').lower() in s.get('location').lower())`, falling back
to every index when that comprehension is empty. -/
def allowedStaff (task : Task) (staff : List Staff) : List ℕ :=
  let base := (List.range staff.length).filter (fun i =>
    taskLocFalsy task ||
      ((staffAt staff i).location != "" &&
        locMatch (task.location.getD "") (staffAt staff i).location))
  if base.isEmpty then List.range staff.length else base

/-- Modelled from the spec's eligibility rule, for comparison with
`allowedStaff`: if the task has no location all staff are eligible;
otherwise exactly the staff whose location contains the task's location as
a case-insensitive substring; an empty result widens to the full list
("open fallback"). -/
def eligibleSpec (task : Task) (staff : List Staff) : List ℕ :=
  match task.location with
  | none => List.range staff.length
  | some l =>
    let m := (List.range staff.length).filter (fun i =>
      locMatch l (staffAt staff i).location)
    if m.isEmpty then List.range staff.length else m

/-- A solution of the single-day model: the value of decision variable
`assign[(t, s)]`. -/
abbrev Sol1 := ℕ → ℕ → Bool

/-- The 0/1 value of a Boolean decision variable. -/
def b01 (b : Bool) : ℕ := cond b 1 0

/-- Left-hand side of the single-day assignment constraint for task `t`:
`sum(assign[(t, s)] for s in allowed)`. -/
def taskAssignSum (staff : List Staff) (tasks : List Task) (a : Sol1) (t : ℕ) : ℕ :=
  ((allowedStaff (taskAt tasks t) staff).map (fun s => b01 (a t s))).sum

/-- Left-hand side of the single-day capacity constraint for staff `s`:
`sum(assign[(t, s)] for t in range(num_tasks))`. -/
def staffLoadSum (numTasks : ℕ) (a : Sol1) (s : ℕ) : ℕ :=
  ((List.range numTasks).map (fun t => b01 (a t s))).sum

/-- All constraints of the single-day model, as a predicate on solutions:
each task is assigned exactly once among its allowed staff, and each
staff member's total load is at most their rounded capacity.  The
auxiliary `load` and `max_load` variables are linked by equalities to
these sums and their bounds `[0, num_tasks]` always admit the linked
values, so they do not further constrain the `assign` variables. -/
def satSingle (staff : List Staff) (tasks : List Task) (a : Sol1) : Prop :=
  (∀ t, t < tasks.length → taskAssignSum staff tasks a t = 1) ∧
  (∀ s, s < staff.length →
    (staffLoadSum tasks.length a s : ℤ) ≤ pyRound (staffAt staff s).capacity)

instance (staff : List Staff) (tasks : List Task) (a : Sol1) :
    Decidable (satSingle staff tasks a) := by
  unfold satSingle; infer_instance

/-- The decoding scan of `schedule_tasks` for task `t`: the first staff
index whose decision variable is true (the Python loop breaks at the
first hit). -/
def findFirstStaff (numStaff : ℕ) (a : Sol1) (t : ℕ) : Option ℕ :=
  (List.range numStaff).find? (fun s => a t s)

/-- Index form of the decoded single-day schedule: one `(task, staff)`
index pair per task that has some true variable, in task order. -/
def decodeSingleIdx (numStaff numTasks : ℕ) (a : Sol1) : List (ℕ × ℕ) :=
  (List.range numTasks).filterMap (fun t =>
    (findFirstStaff numStaff a t).map (fun s => (t, s)))

/-- One record of a returned schedule: the Python dict
`{'task': ..., 'staff': ..., 'date': ...}` (no `date` key in the
single-day variant, modelled as `none`). -/
structure SchedRec where
  task : Task
  staff : Staff
  date : Option String
deriving Repr, DecidableEq

/-- The decoded single-day schedule. -/
def decodeSingle (staff : List Staff) (tasks : List Task) (a : Sol1) : List SchedRec :=
  (decodeSingleIdx staff.length tasks.length a).map (fun p =>
    ⟨taskAt tasks p.1, staffAt staff p.2, none⟩)

/-- CP-SAT solver status as interpreted by both schedulers. -/
inductive CpStatus
  | optimal | feasible | infeasible | modelInvalid | unknown
deriving Repr, DecidableEq

/-- `schedule_tasks`, with the external solver call abstracted: `st` is
the status the solver reports and `a` the variable values it returns.
The CP-SAT contract that a returned solution satisfies every constraint
of the model appears as the `satSingle` hypothesis of the theorems. -/
def scheduleTasks (staff : List Staff) (tasks : List Task) (st : CpStatus)
    (a : Sol1) : Except String (List SchedRec) :=
  if st = CpStatus.optimal ∨ st = CpStatus.feasible then
    Except.ok (decodeSingle staff tasks a)
  else
    Except.error "No feasible schedule found"

/-- The inner `parse_date` of `schedule_tasks_multi_day`: `None` and falsy
values give `None`, and a `ValueError` from `fromisoformat` is swallowed
into `None`. -/
def parseDate : Option String → Option ℤ
  | none => none
  | some s => if s = "" then none else pyDateFromIso s

/-- The list `[d for d in deadlines if d is not None]` of parseable task
target dates, as ordinals. -/
def deadlinesOf (tasks : List Task) : List ℤ :=
  tasks.filterMap (fun t => parseDate t.target_date)

/-- `max(deadlines, default=None)` with the `None` fallback to `today`. -/
def maxDeadline (today : ℤ) (tasks : List Task) : ℤ :=
  match deadlinesOf tasks with
  | [] => today
  | d :: ds => ds.foldl max d

/-- The horizon length as an integer:
`(max_deadline + pad_days - today).days + 1`, replaced by 1 when not
positive. -/
def horizonDaysZ (pad today : ℤ) (tasks : List Task) : ℤ :=
  let h := (maxDeadline today tasks + pad) - today + 1
  if h ≤ 0 then 1 else h

/-- The horizon length `horizon_days` (always at least 1). -/
def horizonDays (pad today : ℤ) (tasks : List Task) : ℕ :=
  (horizonDaysZ pad today tasks).toNat

/-- The earliest allowed day index `start_day` for a task: 0 without a
parseable target date, otherwise `max((td - today).days, 0)`, capped to
the last horizon day `H - 1` as a safety fallback when it would leave the
horizon. -/
def startDay (today : ℤ) (H : ℕ) (task : Task) : ℕ :=
  match parseDate task.target_date with
  | none => 0
  | some td =>
    let sd := max (td - today) 0
    if (H : ℤ) ≤ sd then H - 1 else sd.toNat

/-- A solution of the multi-day model: the value of `x[(t, s, d)]`. -/
abbrev Sol3 := ℕ → ℕ → ℕ → Bool

/-- The `(staff, day)` pairs ranged over by the multi-day assignment
constraint of one task: allowed staff crossed with days in
`range(start_day, horizon_days)`. -/
def windowPairs (allowed : List ℕ) (start H : ℕ) : List (ℕ × ℕ) :=
  allowed.flatMap (fun s => (List.range' start (H - start)).map (fun d => (s, d)))

/-- Left-hand side of the multi-day assignment constraint for task `t`:
`sum(x[(t, s, d)] for s in allowed_staff for d in range(start_day, horizon_days))`,
with `H` the horizon length. -/
def taskWindowSum (staff : List Staff) (tasks : List Task) (today : ℤ)
    (H : ℕ) (x : Sol3) (t : ℕ) : ℕ :=
  ((windowPairs (allowedStaff (taskAt tasks t) staff)
      (startDay today H (taskAt tasks t)) H).map
    (fun p => b01 (x t p.1 p.2))).sum

/-- Left-hand side of the per-day capacity constraint:
`sum(x[(t, s, d)] for t in range(num_tasks))`. -/
def dayLoadSum (numTasks : ℕ) (x : Sol3) (s d : ℕ) : ℕ :=
  ((List.range numTasks).map (fun t => b01 (x t s d))).sum

/-- All `(staff, day)` index pairs in solver iteration order (staff-major),
as scanned by the objective linkage and the decoding loops. -/
def sdPairsAll (numStaff H : ℕ) : List (ℕ × ℕ) :=
  (List.range numStaff).flatMap (fun s => (List.range H).map (fun d => (s, d)))

/-- The weighted sum `sum(d * x[(t, s, d)])` linked by equality to the
auxiliary `day_t` variable of task `t`. -/
def dayWeightSum (numStaff H : ℕ) (x : Sol3) (t : ℕ) : ℕ :=
  ((sdPairsAll numStaff H).map (fun p => p.2 * b01 (x t p.1 p.2))).sum

/-- All constraints of the multi-day model, projected onto the `x`
variables: exactly-one assignment within each task's
(allowed staff) x (on-or-after start day) window, per-staff per-day
capacity, and the requirement that the weighted day sum of each task fits
the `[0, horizon_days - 1]` domain of its linked `day_t` variable (the
`day_t` and `last_assigned` variables themselves are forced by
equalities, and a value for `last_assigned` exists exactly when every
weighted sum is at most `horizon_days - 1`). -/
def satMulti (staff : List Staff) (tasks : List Task) (pad today : ℤ)
    (x : Sol3) : Prop :=
  (∀ t, t < tasks.length →
    taskWindowSum staff tasks today (horizonDays pad today tasks) x t = 1) ∧
  (∀ s, s < staff.length → ∀ d, d < horizonDays pad today tasks →
    (dayLoadSum tasks.length x s d : ℤ) ≤ pyRound (staffAt staff s).capacity) ∧
  (∀ t, t < tasks.length →
    dayWeightSum staff.length (horizonDays pad today tasks) x t ≤
      horizonDays pad today tasks - 1)

instance (staff : List Staff) (tasks : List Task) (pad today : ℤ) (x : Sol3) :
    Decidable (satMulti staff tasks pad today x) := by
  unfold satMulti; infer_instance

/-- The decoding scan of `schedule_tasks_multi_day` for task `t`: the
first `(staff, day)` pair (staff-major, day-minor, matching the two
nested loops with the `assigned` flag) whose variable is true. -/
def findFirstSD (numStaff H : ℕ) (x : Sol3) (t : ℕ) : Option (ℕ × ℕ) :=
  (sdPairsAll numStaff H).find? (fun p => x t p.1 p.2)

/-- Index form of the decoded multi-day schedule: `(task, staff, day)`
triples in task order. -/
def decodeMultiIdx (numStaff H numTasks : ℕ) (x : Sol3) : List (ℕ × ℕ × ℕ) :=
  (List.range numTasks).filterMap (fun t =>
    (findFirstSD numStaff H x t).map (fun p => (t, p.1, p.2)))

/-- `schedule_tasks_multi_day`, with the external solver call abstracted
as in `scheduleTasks`; the assigned date is
`(today + timedelta(days=d)).isoformat()`. -/
def scheduleTasksMultiDay (staff : List Staff) (tasks : List Task)
    (pad today : ℤ) (st : CpStatus) (x : Sol3) : Except String (List SchedRec) :=
  let H := horizonDays pad today tasks
  if st = CpStatus.optimal ∨ st = CpStatus.feasible then
    Except.ok ((decodeMultiIdx staff.length H tasks.length x).map (fun p =>
      ⟨taskAt tasks p.1, staffAt staff p.2.1, some (isoOfOrdinal (today + p.2.2))⟩))
  else
    Except.error "No feasible multi-day schedule found"

/-- The header row written by `write_schedule_csv`. -/
def scheduleHeader : List String :=
  ["machine", "order", "part", "target_date", "location", "staff_id",
   "staff_name", "staff_location", "assigned_date"]

/-- The nine cells written for one schedule record; the `csv` module
serialises Python `None` as an empty cell, and the assigned date is
`row.get('date') or ''`. -/
def schedRowFields (r : SchedRec) : List String :=
  [r.task.machine, r.task.order.getD "", r.task.part, r.task.target_date.getD "",
   r.task.location.getD "", r.staff.id.getD "", r.staff.name.getD "",
   r.staff.location, r.date.getD ""]

/-- `write_schedule_csv` at row granularity: the header row followed by
one row of cells per schedule record (the byte-level quoting of the
`csv` module is a faithful inverse pair with its reader and is external
to this code). -/
def writeScheduleRows (sched : List SchedRec) : List (List String) :=
  scheduleHeader :: sched.map schedRowFields

/-- Re-parsing one data row of the written tabular form into the
`(machine, part, staff_id, assigned_date)` tuple (columns 0, 2, 5, 8). -/
def reparseRow (row : List String) : String × String × String × String :=
  (row.getD 0 "", row.getD 2 "", row.getD 5 "", row.getD 8 "")

/-- Re-parsing the written tabular form: every data row after the header. -/
def reparseRows (rows : List (List String)) : List (String × String × String × String) :=
  rows.tail.map reparseRow

/-- The `(machine, part, staff_id, assigned_date)` tuple of an original
schedule record, each component as the Python value it holds: the staff
id may be `None`, and a missing assigned date reads back as the empty
string by the claim's own convention for single-day schedules. -/
def origTuple (r : SchedRec) : Option String × Option String × Option String × Option String :=
  (some r.task.machine, some r.task.part, r.staff.id, some (r.date.getD ""))

/-- A re-parsed tuple of strings, lifted for comparison with `origTuple`. -/
def liftTuple (q : String × String × String × String) :
    Option String × Option String × Option String × Option String :=
  (some q.1, some q.2.1, some q.2.2.1, some q.2.2.2)

/-! Concrete instances used by witnesses and counterexamples. -/

/-- One staff member with the float capacity 1.5 (an exactly representable
float), whose Python rounding is 2 while its floor is 1. -/
def c1Staff : List Staff := [⟨some "s1", none, "", ⟨3, 2, by decide, by decide⟩⟩]

/-- Two location-free tasks. -/
def c1Tasks : List Task :=
  [⟨"m1", none, "p1", none, none⟩, ⟨"m1", none, "p2", none, none⟩]

/-- The solution assigning every task to staff 0. -/
def c1Sol : Sol1 := fun _ s => s == 0

/-- One undated location-free task. -/
def c1TaskM : List Task := [⟨"m1", none, "p1", none, none⟩]

/-- The multi-day solution assigning task 0 to staff 0 on day 0. -/
def c1SolM : Sol3 := fun t s d => t == 0 && s == 0 && d == 0

/-- Two staff members in different locations, capacity 1 each. -/
def c2Staff : List Staff :=
  [⟨some "s0", none, "delhi", ratInt 1⟩, ⟨some "s1", none, "chennai", ratInt 1⟩]

/-- One task bound to "chennai", so only staff index 1 is eligible. -/
def c2Tasks : List Task := [⟨"m1", none, "p1", none, some "chennai"⟩]

/-- A solution setting the task's variable for both staff members: the
exactly-one constraint only ranges over the eligible staff, so this still
satisfies every constraint of the single-day model. -/
def c2Sol : Sol1 := fun t _ => t == 0

/-- One staff member with no location, capacity 1. -/
def c4Staff : List Staff := [⟨some "s1", none, "", ratInt 1⟩]

/-- One task with target date 0001-01-03 (ordinal 3); with today = ordinal
1 its start day is 2. -/
def c4Tasks : List Task := [⟨"m1", none, "p1", some "0001-01-03", none⟩]

/-- A solution with the required assignment on day 2 plus a spurious true
variable on day 0 (before the start day): the window constraint does not
see day 0 and the day-0 capacity is not exceeded, so this satisfies every
constraint of the multi-day model. -/
def c4Sol : Sol3 := fun t s d => t == 0 && s == 0 && (d == 0 || d == 2)

/-- The same instance with only the on-time assignment set. -/
def c4CleanSol : Sol3 := fun t s d => t == 0 && s == 0 && d == 2

/-! Helper lemmas about sums of 0/1 indicator lists and decodings. -/

lemma exists_true_of_b01_sum_ne_zero {α : Type} {l : List α} {p : α → Bool}
    (h : (l.map fun i => b01 (p i)).sum ≠ 0) : ∃ i ∈ l, p i = true := by
  induction l with
  | nil => simp at h
  | cons a l ih =>
    by_cases hp : p a = true
    · exact ⟨a, by simp, hp⟩
    · simp only [List.map_cons, List.sum_cons, b01, hp, Bool.false_eq_true,
        cond_false, Nat.zero_add] at h
      obtain ⟨i, hi, hpi⟩ := ih h
      exact ⟨i, by simp [hi], hpi⟩

lemma exists_true_of_b01_sum_eq_one {α : Type} {l : List α} {p : α → Bool}
    (h : (l.map fun i => b01 (p i)).sum = 1) : ∃ i ∈ l, p i = true :=
  exists_true_of_b01_sum_ne_zero (by omega)

lemma length_filterMap_of_isSome {α β : Type} {l : List α} {f : α → Option β}
    (h : ∀ x ∈ l, (f x).isSome) : (l.filterMap f).length = l.length := by
  induction l with
  | nil => rfl
  | cons a l ih =>
    obtain ⟨b, hb⟩ := Option.isSome_iff_exists.mp (h a (by simp))
    simp [List.filterMap_cons, hb, ih (fun x hx => h x (by simp [hx]))]

lemma filterMap_eq_map_of_forall {α β : Type} {l : List α} {f : α → Option β}
    {g : α → β} (h : ∀ x ∈ l, f x = some (g x)) : l.filterMap f = l.map g := by
  induction l with
  | nil => rfl
  | cons a l ih =>
    simp [List.filterMap_cons, h a (by simp), ih (fun x hx => h x (by simp [hx]))]

lemma countP_filterMap_le {α β : Type} {l : List α} {f : α → Option β}
    {p : β → Bool} {g : α → Bool}
    (h : ∀ x ∈ l, ∀ b, f x = some b → p b = true → g x = true) :
    (l.filterMap f).countP p ≤ (l.map fun x => b01 (g x)).sum := by
  induction l with
  | nil => simp
  | cons a l ih =>
    have ih' := ih (fun x hx => h x (by simp [hx]))
    cases hf : f a with
    | none =>
      simp only [List.filterMap_cons, hf, List.map_cons, List.sum_cons]
      exact le_trans ih' (Nat.le_add_left _ _)
    | some b =>
      simp only [List.filterMap_cons, hf, List.map_cons, List.sum_cons,
        List.countP_cons]
      by_cases hp : p b = true
      · have hg : g a = true := h a (by simp) b hf hp
        have hb : b01 (g a) = 1 := by rw [hg]; rfl
        rw [hb]
        simp only [hp, if_true]
        omega
      · simp only [hp, if_false, Nat.add_zero]
        exact le_trans ih' (Nat.le_add_left _ _)

lemma allowedStaff_mem_lt {task : Task} {staff : List Staff} :
    ∀ i ∈ allowedStaff task staff, i < staff.length := by
  intro i hi
  unfold allowedStaff at hi
  by_cases hb : (List.isEmpty ((List.range staff.length).filter (fun i =>
      taskLocFalsy task ||
        ((staffAt staff i).location != "" &&
          locMatch (task.location.getD "") (staffAt staff i).location))))
  · simp only [hb, if_true] at hi
    exact List.mem_range.mp hi
  · simp only [hb, if_false] at hi
    exact List.mem_range.mp (List.mem_filter.mp hi).1

lemma one_le_horizonDaysZ (pad today : ℤ) (tasks : List Task) :
    1 ≤ horizonDaysZ pad today tasks := by
  unfold horizonDaysZ
  dsimp only
  split <;> omega

lemma one_le_horizonDays (pad today : ℤ) (tasks : List Task) :
    1 ≤ horizonDays pad today tasks := by
  have := one_le_horizonDaysZ pad today tasks
  unfold horizonDays
  omega

lemma startDay_le_pred {today : ℤ} {H : ℕ} {task : Task} (hH : 1 ≤ H) :
    startDay today H task ≤ H - 1 := by
  unfold startDay
  cases parseDate task.target_date with
  | none => simp [Nat.le_sub_one_of_lt hH]
  | some td =>
    simp only
    split
    · exact Nat.le_refl _
    · rename_i hlt
      have h0 : (0 : ℤ) ≤ max (td - today) 0 := le_max_right _ _
      omega

lemma mem_windowPairs {allowed : List ℕ} {start H : ℕ} {p : ℕ × ℕ}
    (hp : p ∈ windowPairs allowed start H) (hsH : start ≤ H) :
    p.1 ∈ allowed ∧ start ≤ p.2 ∧ p.2 < H := by
  unfold windowPairs at hp
  obtain ⟨s, hs, hmem⟩ := List.mem_flatMap.mp hp
  obtain ⟨d, hd, hpd⟩ := List.mem_map.mp hmem
  obtain ⟨hd1, hd2⟩ := List.mem_range'_1.mp hd
  subst hpd
  exact ⟨hs, hd1, by omega⟩

lemma mem_sdPairsAll {numStaff H : ℕ} {p : ℕ × ℕ} :
    p ∈ sdPairsAll numStaff H ↔ p.1 < numStaff ∧ p.2 < H := by
  unfold sdPairsAll
  constructor
  · intro hp
    obtain ⟨s, hs, hmem⟩ := List.mem_flatMap.mp hp
    obtain ⟨d, hd, hpd⟩ := List.mem_map.mp hmem
    subst hpd
    exact ⟨List.mem_range.mp hs, List.mem_range.mp hd⟩
  · intro ⟨h1, h2⟩
    exact List.mem_flatMap.mpr ⟨p.1, List.mem_range.mpr h1,
      List.mem_map.mpr ⟨p.2, List.mem_range.mpr h2, by simp⟩⟩

/-- From the exactly-one constraint of the single-day model: every task
has a true variable at some allowed staff index. -/
lemma sat_single_exists {staff : List Staff} {tasks : List Task} {a : Sol1}
    (h : satSingle staff tasks a) {t : ℕ} (ht : t < tasks.length) :
    ∃ s ∈ allowedStaff (taskAt tasks t) staff, a t s = true := by
  have h1 := h.1 t ht
  unfold taskAssignSum at h1
  exact exists_true_of_b01_sum_eq_one h1

/-- Decoding finds a staff member for every task of a satisfying
single-day solution. -/
lemma sat_single_find_isSome {staff : List Staff} {tasks : List Task} {a : Sol1}
    (h : satSingle staff tasks a) {t : ℕ} (ht : t < tasks.length) :
    (findFirstStaff staff.length a t).isSome := by
  obtain ⟨s, hs, ha⟩ := sat_single_exists h ht
  exact List.find?_isSome.mpr ⟨s, List.mem_range.mpr (allowedStaff_mem_lt s hs), ha⟩

/-- From the exactly-one constraint of the multi-day model: every task has
a true variable at some allowed staff index and some day on or after its
start day (and within the horizon). -/
lemma sat_multi_exists {staff : List Staff} {tasks : List Task}
    {pad today : ℤ} {x : Sol3} (h : satMulti staff tasks pad today x)
    {t : ℕ} (ht : t < tasks.length) :
    ∃ s ∈ allowedStaff (taskAt tasks t) staff,
      ∃ d, startDay today (horizonDays pad today tasks) (taskAt tasks t) ≤ d ∧
        d < horizonDays pad today tasks ∧ x t s d = true := by
  have h1 := h.1 t ht
  unfold taskWindowSum at h1
  obtain ⟨p, hp, hxp⟩ := exists_true_of_b01_sum_eq_one h1
  have hH := one_le_horizonDays pad today tasks
  have hs : startDay today (horizonDays pad today tasks) (taskAt tasks t) ≤
      horizonDays pad today tasks - 1 := startDay_le_pred hH
  obtain ⟨hmem, hd1, hd2⟩ := mem_windowPairs hp (by omega)
  exact ⟨p.1, hmem, p.2, hd1, hd2, hxp⟩

/-- Decoding finds a (staff, day) pair for every task of a satisfying
multi-day solution. -/
lemma sat_multi_find_isSome {staff : List Staff} {tasks : List Task}
    {pad today : ℤ} {x : Sol3} (h : satMulti staff tasks pad today x)
    {t : ℕ} (ht : t < tasks.length) :
    (findFirstSD staff.length (horizonDays pad today tasks) x t).isSome := by
  obtain ⟨s, hs, d, _, hd, hx⟩ := sat_multi_exists h ht
  exact List.find?_isSome.mpr ⟨(s, d),
    mem_sdPairsAll.mpr ⟨allowedStaff_mem_lt s hs, hd⟩, hx⟩

/-- The empty needle occurs in every haystack, as for Python `in`. -/
lemma occursIn_nil (h : List Char) : occursIn [] h = true := by
  cases h <;> simp [occursIn, leadMatch]

/-- A non-empty needle does not occur in the empty haystack. -/
lemma occursIn_nil_right {n : List Char} (hn : n ≠ []) : occursIn n [] = false := by
  cases n with
  | nil => exact absurd rfl hn
  | cons a l => rfl

/-- The empty-string location test: any needle occurs in a string iff ...;
specialised facts used by the eligibility proof. -/
lemma locMatch_empty_needle (s : String) : locMatch "" s = true := by
  unfold locMatch lowerChars
  exact occursIn_nil _

lemma locMatch_empty_hay {l : String} (hl : l ≠ "") : locMatch l "" = false := by
  unfold locMatch lowerChars
  have hd : l.data ≠ [] := by
    intro hcon
    apply hl
    cases l with
    | mk d => cases hcon; rfl
  have : l.data.map Char.toLower ≠ [] := by
    simp [hd]
  simpa using occursIn_nil_right this

/-- Under a satisfying single-day solution the decoded schedule is one
record per task, in task order. -/
lemma decodeSingle_eq_map {staff : List Staff} {tasks : List Task} {a : Sol1}
    (h : satSingle staff tasks a) :
    decodeSingle staff tasks a = (List.range tasks.length).map (fun t =>
      ⟨taskAt tasks t, staffAt staff ((findFirstStaff staff.length a t).getD 0),
        none⟩) := by
  unfold decodeSingle decodeSingleIdx
  rw [List.map_filterMap]
  refine filterMap_eq_map_of_forall ?_
  intro t ht
  obtain ⟨s, hsome⟩ := Option.isSome_iff_exists.mp
    (sat_single_find_isSome h (List.mem_range.mp ht))
  simp [hsome]

/-- Under a satisfying multi-day solution the decoded schedule is one
record per task, in task order. -/
lemma decodeMulti_eq_map {staff : List Staff} {tasks : List Task}
    {pad today : ℤ} {x : Sol3} (h : satMulti staff tasks pad today x) :
    (decodeMultiIdx staff.length (horizonDays pad today tasks) tasks.length x).map
        (fun p => (⟨taskAt tasks p.1, staffAt staff p.2.1,
          some (isoOfOrdinal (today + p.2.2))⟩ : SchedRec)) =
      (List.range tasks.length).map (fun t =>
        ⟨taskAt tasks t,
          staffAt staff ((findFirstSD staff.length (horizonDays pad today tasks)
            x t).getD (0, 0)).1,
          some (isoOfOrdinal (today +
            ((findFirstSD staff.length (horizonDays pad today tasks)
              x t).getD (0, 0)).2))⟩) := by
  unfold decodeMultiIdx
  rw [List.map_filterMap]
  refine filterMap_eq_map_of_forall ?_
  intro t ht
  obtain ⟨q, hsome⟩ := Option.isSome_iff_exists.mp
    (sat_multi_find_isSome h (List.mem_range.mp ht))
  simp [hsome]

/-! The claims. -/

/-- C3: for every task and staff list, the eligible-staff set the code
builds equals the spec's description — all staff when the task has no
location, otherwise exactly the staff whose location contains the task's
location case-insensitively, widened to the full list when empty — and
with at least one staff member on the roster the resulting set is never
empty, so the assignment constraint always has a candidate. -/
theorem C3_eligibility_resolution (task : Task) (staff : List Staff)
    (hne : staff ≠ []) :
    allowedStaff task staff = eligibleSpec task staff ∧
    allowedStaff task staff ≠ [] := by
  constructor
  · cases hloc : task.location with
    | none =>
      have ht : taskLocFalsy task = true := by simp [taskLocFalsy, hloc]
      simp [allowedStaff, eligibleSpec, hloc, ht]
    | some l =>
      by_cases hl : l = ""
      · subst hl
        have ht : taskLocFalsy task = true := by simp [taskLocFalsy, hloc]
        simp [allowedStaff, eligibleSpec, hloc, ht, locMatch_empty_needle]
      · have ht : taskLocFalsy task = false := by simp [taskLocFalsy, hloc, hl]
        have hcong : ∀ i ∈ List.range staff.length,
            (((staffAt staff i).location != "") &&
              locMatch l (staffAt staff i).location)
            = locMatch l (staffAt staff i).location := by
          intro i _
          by_cases hloc0 : (staffAt staff i).location = ""
          · rw [hloc0]
            simp [locMatch_empty_hay hl]
          · simp [hloc0]
        simp only [allowedStaff, eligibleSpec, hloc, ht, Option.getD_some,
          Bool.false_or]
        rw [List.filter_congr hcong]
  · unfold allowedStaff
    have hrange : List.range staff.length ≠ [] := by
      intro hcon
      exact hne (List.length_eq_zero.mp (List.range_eq_nil.mp hcon))
    by_cases hb : (List.isEmpty ((List.range staff.length).filter (fun i =>
        taskLocFalsy task ||
          ((staffAt staff i).location != "" &&
            locMatch (task.location.getD "") (staffAt staff i).location))))
    · simp only [hb, if_true]
      exact hrange
    · rw [if_neg hb]
      intro hcon
      exact hb (by rw [hcon]; rfl)

/-- Witness for C3 at the spec's Scenario D: one staff member in "delhi",
a task for "chennai" — no location match, yet the resolver falls back to
the full roster, the model stays satisfiable, and the task is assigned to
that staff member. -/
theorem C3_eligibility_resolution_witness :
    ([⟨some "s1", none, "delhi", ratInt 1⟩] : List Staff) ≠ [] ∧
    (allowedStaff ⟨"m1", none, "p1", none, some "chennai"⟩
        [⟨some "s1", none, "delhi", ratInt 1⟩] =
      eligibleSpec ⟨"m1", none, "p1", none, some "chennai"⟩
        [⟨some "s1", none, "delhi", ratInt 1⟩] ∧
      allowedStaff ⟨"m1", none, "p1", none, some "chennai"⟩
        [⟨some "s1", none, "delhi", ratInt 1⟩] ≠ []) ∧
    satSingle [⟨some "s1", none, "delhi", ratInt 1⟩]
      [⟨"m1", none, "p1", none, some "chennai"⟩] (fun t s => t == 0 && s == 0) ∧
    decodeSingleIdx 1 1 (fun t s => t == 0 && s == 0) = [(0, 0)] :=
  ⟨by decide,
   C3_eligibility_resolution ⟨"m1", none, "p1", none, some "chennai"⟩
     [⟨some "s1", none, "delhi", ratInt 1⟩] (by decide),
   by decide, by decide⟩

/-- C5: the multi-day horizon length equals
`(latest parseable target date - today) + padding + 1`, clamped to at
least 1; with no parseable target date it is `padding + 1` (for the
modelled non-negative padding; the code reads the padding from
`SCHEDULE_PADDING_DAYS`, default 7). -/
theorem C5_horizon_length (pad today : ℤ) (tasks : List Task)
    (hpad : 0 ≤ pad) :
    (horizonDays pad today tasks : ℤ) =
      max 1 (maxDeadline today tasks - today + pad + 1) ∧
    (deadlinesOf tasks = [] → (horizonDays pad today tasks : ℤ) = pad + 1) := by
  have hz := one_le_horizonDaysZ pad today tasks
  have hcast : (horizonDays pad today tasks : ℤ) = horizonDaysZ pad today tasks := by
    unfold horizonDays
    omega
  constructor
  · rw [hcast]
    unfold horizonDaysZ
    dsimp only
    split <;> omega
  · intro hd
    have hmax : maxDeadline today tasks = today := by
      unfold maxDeadline
      rw [hd]
    rw [hcast]
    unfold horizonDaysZ
    rw [hmax]
    dsimp only
    split <;> omega

/-- Witness for C5: one dated task (2025-01-10, ordinal 739261) with
today = 2025-01-01 (ordinal 739252) and padding 7 gives horizon
9 + 7 + 1 = 17; one undated task gives horizon 8. -/
theorem C5_horizon_length_witness :
    (0 : ℤ) ≤ 7 ∧
    (horizonDays 7 739252 [⟨"m1", none, "p1", some "2025-01-10", none⟩] : ℤ) =
      max 1 (maxDeadline 739252 [⟨"m1", none, "p1", some "2025-01-10", none⟩]
        - 739252 + 7 + 1) ∧
    (horizonDays 7 739252 [⟨"m1", none, "p1", some "2025-01-10", none⟩] : ℤ) = 17 ∧
    (horizonDays 7 739252 [⟨"m1", none, "p1", none, none⟩] : ℤ) = 7 + 1 :=
  ⟨by decide,
   (C5_horizon_length 7 739252 [⟨"m1", none, "p1", some "2025-01-10", none⟩]
      (by decide)).1,
   by decide,
   (C5_horizon_length 7 739252 [⟨"m1", none, "p1", none, none⟩]
      (by decide)).2 (by decide)⟩

/-- C7 counterexample: a staff row whose capacity cell is present but not
a number makes `load_staff` raise `ValueError` (the `float()` call is not
guarded), rather than defaulting the capacity to 1 as the claim states. -/
theorem C7_counterexample :
    loadStaff [{ id := some "s1", capacity := some "abc" }] =
      Except.error "ValueError: could not convert string to float" := rfl

/-- C7 as amended: `load_staff` defaults the capacity to 1 exactly when
the capacity columns are absent or hold a falsy (empty) value; a present,
non-empty, unparsable value raises `ValueError` out of `load_staff`
instead of defaulting. -/
theorem C7_capacity_default (r : StaffRow) :
    (rowCapacityField r = none →
      loadStaff [r] =
        Except.ok [⟨rowIdField r, rowNameField r, rowLocField r, ratInt 1⟩]) ∧
    (∀ s, rowCapacityField r = some s → pyFloat s = none →
      loadStaff [r] =
        Except.error "ValueError: could not convert string to float") := by
  constructor
  · intro h
    simp [loadStaff, loadOne, h]
  · intro s hs hbad
    simp [loadStaff, loadOne, hs, hbad]

/-- Witness for C7: a row with no capacity cell and a row whose capacity
cell is the empty string both load with capacity 1 (the falsy `or`-chain
falls through to the literal 1), while a row whose capacity cell is "abc"
makes `load_staff` raise. -/
theorem C7_capacity_default_witness :
    rowCapacityField { id := some "s1" } = none ∧
    loadStaff [{ id := some "s1" }] =
      Except.ok [⟨some "s1", none, "", ratInt 1⟩] ∧
    rowCapacityField { id := some "s1", capacity := some "" } = none ∧
    loadStaff [{ id := some "s1", capacity := some "" }] =
      Except.ok [⟨some "s1", none, "", ratInt 1⟩] ∧
    pyFloat "abc" = none ∧
    loadStaff [{ id := some "s1", capacity := some "abc" }] =
      Except.error "ValueError: could not convert string to float" :=
  ⟨rfl,
   (C7_capacity_default { id := some "s1" }).1 rfl,
   rfl,
   (C7_capacity_default { id := some "s1", capacity := some "" }).1 rfl,
   by decide,
   (C7_capacity_default { id := some "s1", capacity := some "abc" }).2
     "abc" rfl (by decide)⟩

/-- C10: a task whose target date is present but not a valid ISO date is
treated exactly like a task with no target date: `parse_date` swallows
the `ValueError` into `None`, the earliest schedulable day is 0, and the
value contributes nothing to the horizon computation. -/
theorem C10_unparsable_target_date (t : Task) (s : String)
    (hts : t.target_date = some s) (hbad : pyDateFromIso s = none) :
    parseDate t.target_date = none ∧
    (∀ today H, startDay today H t = 0) ∧
    (∀ pad today pre post,
      horizonDays pad today (pre ++ t :: post) =
        horizonDays pad today (pre ++ { t with target_date := none } :: post)) := by
  have hp : parseDate t.target_date = none := by
    rw [hts]
    simp [parseDate, hbad]
  refine ⟨hp, ?_, ?_⟩
  · intro today H
    simp [startDay, hp]
  · intro pad today pre post
    have hd : deadlinesOf (pre ++ t :: post) =
        deadlinesOf (pre ++ { t with target_date := none } :: post) := by
      have h2 : parseDate (none : Option String) = none := rfl
      simp only [deadlinesOf, List.filterMap_append, List.filterMap_cons, hp, h2]
    unfold horizonDays horizonDaysZ maxDeadline
    rw [hd]

/-- Witness for C10: the unparsable target "soon" is treated as no date:
start day 0, and the horizon with it equals the horizon without it. -/
theorem C10_unparsable_target_date_witness :
    (⟨"m1", none, "p1", some "soon", none⟩ : Task).target_date = some "soon" ∧
    pyDateFromIso "soon" = none ∧
    parseDate (some "soon") = none ∧
    startDay 739252 5 ⟨"m1", none, "p1", some "soon", none⟩ = 0 ∧
    horizonDays 7 739252 [⟨"m1", none, "p1", some "soon", none⟩] =
      horizonDays 7 739252 [⟨"m1", none, "p1", none, none⟩] :=
  ⟨rfl, by decide,
   (C10_unparsable_target_date ⟨"m1", none, "p1", some "soon", none⟩ "soon"
      rfl (by decide)).1,
   (C10_unparsable_target_date ⟨"m1", none, "p1", some "soon", none⟩ "soon"
      rfl (by decide)).2.1 739252 5,
   (C10_unparsable_target_date ⟨"m1", none, "p1", some "soon", none⟩ "soon"
      rfl (by decide)).2.2 7 739252 [] []⟩

/-- C1 counterexample: capacity 1.5 rounds to 2 (Python `round`, half to
even), so a staff member with floor(capacity) = 1 can receive 2 tasks in
a schedule decoded from a solution that satisfies every model
constraint — the claim's floor bound does not hold. -/
theorem C1_counterexample :
    satSingle c1Staff c1Tasks c1Sol ∧
    scheduleTasks c1Staff c1Tasks CpStatus.optimal c1Sol =
      Except.ok (decodeSingle c1Staff c1Tasks c1Sol) ∧
    ((decodeSingle c1Staff c1Tasks c1Sol).countP
      (fun r => r.staff == staffAt c1Staff 0)) = 2 ∧
    ⌊(staffAt c1Staff 0).capacity⌋ = 1 ∧
    ¬(((decodeSingle c1Staff c1Tasks c1Sol).countP
        (fun r => r.staff == staffAt c1Staff 0) : ℤ) ≤
      ⌊(staffAt c1Staff 0).capacity⌋) :=
  ⟨by decide, rfl, by decide, by decide, by decide⟩

/-- C1 as amended: in every schedule decoded from a constraint-satisfying
solution, the number of assignments to staff `s` (on day `d` in the
multi-day variant) is at most `int(round(s.capacity))` — Python's
round-half-to-even, not the floor the claim states (they agree on
integral capacities). -/
theorem C1_capacity_le_rounded (staff : List Staff) (tasks : List Task)
    (a : Sol1) (x : Sol3) (pad today : ℤ) :
    (satSingle staff tasks a → ∀ s, s < staff.length →
      ((decodeSingleIdx staff.length tasks.length a).countP
          (fun p => p.2 == s) : ℤ) ≤ pyRound (staffAt staff s).capacity) ∧
    (satMulti staff tasks pad today x → ∀ s, s < staff.length →
      ∀ d, d < horizonDays pad today tasks →
      ((decodeMultiIdx staff.length (horizonDays pad today tasks)
          tasks.length x).countP (fun p => p.2.1 == s && p.2.2 == d) : ℤ) ≤
        pyRound (staffAt staff s).capacity) := by
  constructor
  · intro h s hs
    have hcount : (decodeSingleIdx staff.length tasks.length a).countP
        (fun p => p.2 == s) ≤ staffLoadSum tasks.length a s := by
      unfold decodeSingleIdx staffLoadSum
      refine countP_filterMap_le ?_
      intro t ht b hb hpb
      obtain ⟨s', hs', rfl⟩ := Option.map_eq_some'.mp hb
      have heq : s' = s := by simpa using hpb
      subst heq
      exact List.find?_some hs'
    have hle := h.2 s hs
    have hcast : ((decodeSingleIdx staff.length tasks.length a).countP
        (fun p => p.2 == s) : ℤ) ≤ (staffLoadSum tasks.length a s : ℤ) := by
      exact_mod_cast hcount
    exact le_trans hcast hle
  · intro h s hs d hd
    have hcount : (decodeMultiIdx staff.length (horizonDays pad today tasks)
        tasks.length x).countP (fun p => p.2.1 == s && p.2.2 == d) ≤
        dayLoadSum tasks.length x s d := by
      unfold decodeMultiIdx dayLoadSum
      refine countP_filterMap_le ?_
      intro t ht b hb hpb
      obtain ⟨q, hq, rfl⟩ := Option.map_eq_some'.mp hb
      have hx := List.find?_some hq
      simp only [Bool.and_eq_true, beq_iff_eq] at hpb
      obtain ⟨h1, h2⟩ := hpb
      rw [← h1, ← h2]
      exact hx
    have hle := h.2.1 s hs d hd
    have hcast : ((decodeMultiIdx staff.length (horizonDays pad today tasks)
        tasks.length x).countP (fun p => p.2.1 == s && p.2.2 == d) : ℤ) ≤
        (dayLoadSum tasks.length x s d : ℤ) := by
      exact_mod_cast hcount
    exact le_trans hcast hle

/-- Witness for C1 as amended: the counterexample instance respects the
rounded bound (2 assignments against round(1.5) = 2), and a one-task
multi-day instance respects its per-day bound. -/
theorem C1_capacity_le_rounded_witness :
    satSingle c1Staff c1Tasks c1Sol ∧
    ((decodeSingleIdx 1 2 c1Sol).countP (fun p => p.2 == 0) : ℤ) ≤
      pyRound (staffAt c1Staff 0).capacity ∧
    satMulti c1Staff c1TaskM 0 0 c1SolM ∧
    ((decodeMultiIdx 1 (horizonDays 0 0 c1TaskM) 1 c1SolM).countP
        (fun p => p.2.1 == 0 && p.2.2 == 0) : ℤ) ≤
      pyRound (staffAt c1Staff 0).capacity :=
  ⟨by decide,
   (C1_capacity_le_rounded c1Staff c1Tasks c1Sol c1SolM 0 0).1
     (by decide) 0 (by decide),
   by decide,
   (C1_capacity_le_rounded c1Staff c1TaskM c1Sol c1SolM 0 0).2
     (by decide) 0 (by decide) 0 (by decide)⟩

/-- C2 counterexample: the exactly-one constraint only ranges over a
task's eligible staff, so a satisfying solution can also set the task's
variable for an ineligible staff member: here task 0 (location "chennai",
eligible staff = [1]) has two true variables, and the decoding scan picks
the ineligible staff 0 — the claim's "exactly one true decision variable
across all combinations" fails. -/
theorem C2_counterexample :
    satSingle c2Staff c2Tasks c2Sol ∧
    allowedStaff (taskAt c2Tasks 0) c2Staff = [1] ∧
    ((List.range c2Staff.length).countP (fun s => c2Sol 0 s)) = 2 ∧
    decodeSingleIdx c2Staff.length c2Tasks.length c2Sol = [(0, 0)] := by
  decide

/-- C2 as amended: under any constraint-satisfying solution each task has
exactly one true decision variable among its eligible (staff) resp.
(staff, day within window) combinations, and the decoding scan therefore
always finds at least one match; variables outside the eligible set are
unconstrained, so additional true variables (multiple matches) are
possible and decoding takes the first. -/
theorem C2_exactly_one_among_eligible (staff : List Staff)
    (tasks : List Task) (a : Sol1) (x : Sol3) (pad today : ℤ) :
    (satSingle staff tasks a → ∀ t, t < tasks.length →
      taskAssignSum staff tasks a t = 1 ∧
      (findFirstStaff staff.length a t).isSome = true) ∧
    (satMulti staff tasks pad today x → ∀ t, t < tasks.length →
      taskWindowSum staff tasks today (horizonDays pad today tasks) x t = 1 ∧
      (findFirstSD staff.length (horizonDays pad today tasks) x t).isSome = true) :=
  ⟨fun h t ht => ⟨h.1 t ht, sat_single_find_isSome h ht⟩,
   fun h t ht => ⟨h.1 t ht, sat_multi_find_isSome h ht⟩⟩

/-- Witness for C2 as amended, on the counterexample instance and the
day-window instance of C4. -/
theorem C2_exactly_one_among_eligible_witness :
    satSingle c2Staff c2Tasks c2Sol ∧
    (taskAssignSum c2Staff c2Tasks c2Sol 0 = 1 ∧
      (findFirstStaff c2Staff.length c2Sol 0).isSome = true) ∧
    satMulti c4Staff c4Tasks 1 1 c4Sol ∧
    (taskWindowSum c4Staff c4Tasks 1 (horizonDays 1 1 c4Tasks) c4Sol 0 = 1 ∧
      (findFirstSD c4Staff.length (horizonDays 1 1 c4Tasks) c4Sol 0).isSome = true) :=
  ⟨by decide,
   (C2_exactly_one_among_eligible c2Staff c2Tasks c2Sol c1SolM 0 0).1
     (by decide) 0 (by decide),
   by decide,
   (C2_exactly_one_among_eligible c4Staff c4Tasks c2Sol c4Sol 1 1).2
     (by decide) 0 (by decide)⟩

/-- C4 counterexample: with today = ordinal 1, a task dated ordinal 3
(start day 2, horizon 4, so the safety clamp is not involved), a solution
with the required on-time variable plus a spurious day-0 variable
satisfies every model constraint, yet the decoding scan returns day 0 —
before the target date. -/
theorem C4_counterexample :
    satMulti c4Staff c4Tasks 1 1 c4Sol ∧
    parseDate (taskAt c4Tasks 0).target_date = some 3 ∧
    startDay 1 (horizonDays 1 1 c4Tasks) (taskAt c4Tasks 0) = 2 ∧
    startDay 1 (horizonDays 1 1 c4Tasks) (taskAt c4Tasks 0) ≠
      horizonDays 1 1 c4Tasks - 1 ∧
    decodeMultiIdx c4Staff.length (horizonDays 1 1 c4Tasks)
      c4Tasks.length c4Sol = [(0, 0, 0)] ∧
    ¬(startDay 1 (horizonDays 1 1 c4Tasks) (taskAt c4Tasks 0) ≤ 0) := by
  decide

/-- C4 as amended: every constraint-satisfying solution gives each task a
true decision variable at an eligible staff member on a day at least
`start_day = max(0, target - today)` (clamped into the horizon); and
whenever the solution sets no true variable before a task's start day,
every decoded assignment day is at least the task's start day.  The
unamended claim fails because the model does not forbid true variables
before the start day and the decoding scan can return one (see the
counterexample). -/
theorem C4_assignment_from_start_day (staff : List Staff)
    (tasks : List Task) (pad today : ℤ) (x : Sol3)
    (h : satMulti staff tasks pad today x) :
    (∀ t, t < tasks.length →
      ∃ s ∈ allowedStaff (taskAt tasks t) staff,
        ∃ d, startDay today (horizonDays pad today tasks) (taskAt tasks t) ≤ d ∧
          d < horizonDays pad today tasks ∧ x t s d = true) ∧
    ((∀ t s d, t < tasks.length → x t s d = true →
        startDay today (horizonDays pad today tasks) (taskAt tasks t) ≤ d) →
      ∀ p ∈ decodeMultiIdx staff.length (horizonDays pad today tasks)
          tasks.length x,
        startDay today (horizonDays pad today tasks) (taskAt tasks p.1) ≤ p.2.2) := by
  constructor
  · intro t ht
    exact sat_multi_exists h ht
  · intro hclean p hp
    unfold decodeMultiIdx at hp
    obtain ⟨t, htmem, hsome⟩ := List.mem_filterMap.mp hp
    obtain ⟨q, hq, rfl⟩ := Option.map_eq_some'.mp hsome
    have hq2 : (sdPairsAll staff.length (horizonDays pad today tasks)).find?
        (fun p => x t p.1 p.2) = some q := hq
    have hx : (fun r : ℕ × ℕ => x t r.1 r.2) q = true :=
      @List.find?_some (ℕ × ℕ) (fun r => x t r.1 r.2) q
        (sdPairsAll staff.length (horizonDays pad today tasks)) hq2
    exact hclean t q.1 q.2 (List.mem_range.mp htmem) hx

/-- Witness for C4 as amended: the clean solution on the counterexample
instance decodes on day 2, on or after the start day 2. -/
theorem C4_assignment_from_start_day_witness :
    satMulti c4Staff c4Tasks 1 1 c4CleanSol ∧
    decodeMultiIdx 1 (horizonDays 1 1 c4Tasks) 1 c4CleanSol = [(0, 0, 2)] ∧
    (∀ p ∈ decodeMultiIdx c4Staff.length (horizonDays 1 1 c4Tasks)
        c4Tasks.length c4CleanSol,
      startDay 1 (horizonDays 1 1 c4Tasks) (taskAt c4Tasks p.1) ≤ p.2.2) :=
  ⟨by decide, by decide,
   (C4_assignment_from_start_day c4Staff c4Tasks 1 1 c4CleanSol (by decide)).2
     (by
       intro t s d ht hx
       simp only [c4CleanSol, Bool.and_eq_true, beq_iff_eq] at hx
       obtain ⟨⟨ht0, hs0⟩, hd2⟩ := hx
       subst ht0
       subst hd2
       decide)⟩

/-- C6: both schedulers raise exactly when the solver status is neither
optimal nor feasible; on a success status with a constraint-satisfying
solution they return a complete schedule with one record per input task
(never a partial schedule). -/
theorem C6_solver_status_gate (staff : List Staff) (tasks : List Task)
    (st : CpStatus) (a : Sol1) (x : Sol3) (pad today : ℤ) :
    (¬(st = CpStatus.optimal ∨ st = CpStatus.feasible) →
      scheduleTasks staff tasks st a =
        Except.error "No feasible schedule found" ∧
      scheduleTasksMultiDay staff tasks pad today st x =
        Except.error "No feasible multi-day schedule found") ∧
    ((st = CpStatus.optimal ∨ st = CpStatus.feasible) →
      (satSingle staff tasks a →
        ∃ out, scheduleTasks staff tasks st a = Except.ok out ∧
          out.length = tasks.length) ∧
      (satMulti staff tasks pad today x →
        ∃ out, scheduleTasksMultiDay staff tasks pad today st x =
            Except.ok out ∧
          out.length = tasks.length)) := by
  constructor
  · intro hbad
    constructor
    · simp only [scheduleTasks]
      rw [if_neg hbad]
    · simp only [scheduleTasksMultiDay]
      rw [if_neg hbad]
  · intro hgood
    constructor
    · intro hsat
      refine ⟨decodeSingle staff tasks a, ?_, ?_⟩
      · simp only [scheduleTasks]
        rw [if_pos hgood]
      · rw [decodeSingle_eq_map hsat]
        simp
    · intro hsat
      refine ⟨(decodeMultiIdx staff.length (horizonDays pad today tasks)
          tasks.length x).map (fun p => ⟨taskAt tasks p.1, staffAt staff p.2.1,
            some (isoOfOrdinal (today + p.2.2))⟩), ?_, ?_⟩
      · simp only [scheduleTasksMultiDay]
        rw [if_pos hgood]
      · rw [decodeMulti_eq_map hsat]
        simp

/-- Witness for C6: error results on non-success statuses, complete
schedules on feasible status, for the concrete single-day and multi-day
instances. -/
theorem C6_solver_status_gate_witness :
    scheduleTasks c1Staff c1Tasks CpStatus.infeasible c1Sol =
      Except.error "No feasible schedule found" ∧
    scheduleTasksMultiDay c4Staff c4Tasks 1 1 CpStatus.unknown c4Sol =
      Except.error "No feasible multi-day schedule found" ∧
    (∃ out, scheduleTasks c1Staff c1Tasks CpStatus.feasible c1Sol =
        Except.ok out ∧ out.length = 2) ∧
    (∃ out, scheduleTasksMultiDay c4Staff c4Tasks 1 1 CpStatus.feasible c4Sol =
        Except.ok out ∧ out.length = 1) :=
  ⟨((C6_solver_status_gate c1Staff c1Tasks CpStatus.infeasible c1Sol
      c4Sol 1 1).1 (by decide)).1,
   ((C6_solver_status_gate c4Staff c4Tasks CpStatus.unknown c1Sol
      c4Sol 1 1).1 (by decide)).2,
   ((C6_solver_status_gate c1Staff c1Tasks CpStatus.feasible c1Sol
      c4Sol 1 1).2 (Or.inr rfl)).1 (by decide),
   ((C6_solver_status_gate c4Staff c4Tasks CpStatus.feasible c1Sol
      c4Sol 1 1).2 (Or.inr rfl)).2 (by decide)⟩

/-- C8: whenever either scheduler returns a schedule decoded from a
constraint-satisfying solution, its i-th record is for the i-th input
task — output order is the input task order, independent of solver
iteration order. -/
theorem C8_output_in_task_order (staff : List Staff) (tasks : List Task)
    (st : CpStatus) (a : Sol1) (x : Sol3) (pad today : ℤ) :
    (satSingle staff tasks a → ∀ out,
      scheduleTasks staff tasks st a = Except.ok out →
      out.length = tasks.length ∧
      ∀ i, ∀ hi : i < out.length, (out.get ⟨i, hi⟩).task = taskAt tasks i) ∧
    (satMulti staff tasks pad today x → ∀ out,
      scheduleTasksMultiDay staff tasks pad today st x = Except.ok out →
      out.length = tasks.length ∧
      ∀ i, ∀ hi : i < out.length, (out.get ⟨i, hi⟩).task = taskAt tasks i) := by
  by_cases hgood : st = CpStatus.optimal ∨ st = CpStatus.feasible
  · constructor
    · intro hsat out hout
      simp only [scheduleTasks] at hout
      rw [if_pos hgood] at hout
      simp only [Except.ok.injEq] at hout
      subst hout
      have hmap := decodeSingle_eq_map hsat
      constructor
      · rw [hmap]
        simp
      · intro i hi
        rw [List.get_eq_getElem]
        simp only [hmap, List.getElem_map, List.getElem_range]
    · intro hsat out hout
      simp only [scheduleTasksMultiDay] at hout
      rw [if_pos hgood] at hout
      simp only [Except.ok.injEq] at hout
      subst hout
      have hmap := decodeMulti_eq_map hsat
      constructor
      · rw [hmap]
        simp
      · intro i hi
        rw [List.get_eq_getElem]
        simp only [hmap, List.getElem_map, List.getElem_range]
  · constructor
    · intro hsat out hout
      simp only [scheduleTasks] at hout
      rw [if_neg hgood] at hout
      exact absurd hout (by simp)
    · intro hsat out hout
      simp only [scheduleTasksMultiDay] at hout
      rw [if_neg hgood] at hout
      exact absurd hout (by simp)

/-- Witness for C8 on the concrete instances: the single-day output lists
the two tasks in input order, the multi-day output its one task. -/
theorem C8_output_in_task_order_witness :
    (∀ out, scheduleTasks c1Staff c1Tasks CpStatus.optimal c1Sol =
        Except.ok out →
      out.length = c1Tasks.length ∧
      ∀ i, ∀ hi : i < out.length, (out.get ⟨i, hi⟩).task = taskAt c1Tasks i) ∧
    (∀ out, scheduleTasksMultiDay c4Staff c4Tasks 1 1 CpStatus.optimal c4Sol =
        Except.ok out →
      out.length = c4Tasks.length ∧
      ∀ i, ∀ hi : i < out.length, (out.get ⟨i, hi⟩).task = taskAt c4Tasks i) :=
  ⟨(C8_output_in_task_order c1Staff c1Tasks CpStatus.optimal c1Sol
      c4Sol 1 1).1 (by decide),
   (C8_output_in_task_order c4Staff c4Tasks CpStatus.optimal c1Sol
      c4Sol 1 1).2 (by decide)⟩

/-- C9 counterexample: a schedule record whose staff has no id (`None`,
as `load_staff` produces when the id columns are absent) serialises to an
empty cell and re-parses as the empty string, so the re-parsed tuple
differs from the original one — the round trip is not exact for every
schedule. -/
theorem C9_counterexample :
    ¬((reparseRows (writeScheduleRows
        [⟨⟨"m1", none, "p1", none, none⟩, ⟨none, none, "", ratInt 1⟩,
          none⟩])).map liftTuple =
      [(⟨⟨"m1", none, "p1", none, none⟩, ⟨none, none, "", ratInt 1⟩,
          none⟩ : SchedRec)].map origTuple) := by
  decide

/-- C9 as amended: re-parsing the written 9-column rows yields, row by
row, the `(machine, part, staff_id, assigned_date)` tuples of the
original schedule with a missing (`None`) staff id read back as the empty
string and a missing assigned date as the empty string; when every staff
id is present the round trip is exact. -/
theorem C9_roundtrip_upto_missing (sched : List SchedRec) :
    reparseRows (writeScheduleRows sched) =
      sched.map (fun r => (r.task.machine, r.task.part, r.staff.id.getD "",
        r.date.getD "")) ∧
    ((∀ r ∈ sched, r.staff.id ≠ none) →
      (reparseRows (writeScheduleRows sched)).map liftTuple =
        sched.map origTuple) := by
  have h1 : reparseRows (writeScheduleRows sched) =
      sched.map (fun r => (r.task.machine, r.task.part, r.staff.id.getD "",
        r.date.getD "")) := by
    simp only [reparseRows, writeScheduleRows, List.tail_cons, List.map_map]
    rfl
  refine ⟨h1, ?_⟩
  intro hid
  rw [h1, List.map_map]
  refine List.map_congr_left ?_
  intro r hr
  obtain ⟨y, hy⟩ := Option.ne_none_iff_exists'.mp (hid r hr)
  simp [liftTuple, origTuple, hy, Function.comp]

/-- Witness for C9 as amended: a fully populated one-record schedule
round-trips exactly. -/
theorem C9_roundtrip_upto_missing_witness :
    reparseRows (writeScheduleRows
        [⟨⟨"m1", some "7", "p1", some "2025-01-10", some "chennai"⟩,
          ⟨some "s1", some "Arun", "chennai", ratInt 1⟩,
          some "2025-01-11"⟩]) =
      [("m1", "p1", "s1", "2025-01-11")] ∧
    (reparseRows (writeScheduleRows
        [⟨⟨"m1", some "7", "p1", some "2025-01-10", some "chennai"⟩,
          ⟨some "s1", some "Arun", "chennai", ratInt 1⟩,
          some "2025-01-11"⟩])).map liftTuple =
      [(⟨⟨"m1", some "7", "p1", some "2025-01-10", some "chennai"⟩,
          ⟨some "s1", some "Arun", "chennai", ratInt 1⟩,
          some "2025-01-11"⟩ : SchedRec)].map origTuple :=
  ⟨((C9_roundtrip_upto_missing
      [⟨⟨"m1", some "7", "p1", some "2025-01-10", some "chennai"⟩,
        ⟨some "s1", some "Arun", "chennai", ratInt 1⟩,
        some "2025-01-11"⟩]).1).trans (by decide),
   (C9_roundtrip_upto_missing
      [⟨⟨"m1", some "7", "p1", some "2025-01-10", some "chennai"⟩,
        ⟨some "s1", some "Arun", "chennai", ratInt 1⟩,
        some "2025-01-11"⟩]).2 (by decide)⟩

end Sched
